import Mathlib

/- Verification development for the OpenOA Cloud Analyst core: temporal
alignment, histogram preparation, summary statistics, Monte Carlo engine
model, and form validation. -/

namespace OpenOA

/-! ## Temporal aligner

The backend aligner is documented in `backend/TEST_REPORT.md` (its Python
service module is not part of the shipped sources), so the definitions in
this section are modelled from the specification, faithful to its wording. -/

/-- Modelled from the spec: the backend aligner service module is missing from
the sources; this is §4.2 step 2 / §9 of the spec, the inclusive day span
between two day-numbered dates (both endpoints count, difference plus one). -/
def inclusive_day_span (startDay endDay : ℤ) : ℤ :=
  (endDay - startDay) + 1

/-- Modelled from the spec: §4.2 step 3, the three-tier adaptive buffer:
spans up to 370 days get no buffer, spans in (370, 385] one day, larger
spans five days. -/
def buffer_days_for (rawSpanDays : ℤ) : ℤ :=
  if rawSpanDays ≤ 370 then 0
  else if rawSpanDays ≤ 385 then 1
  else 5

/-- Modelled from the spec: §4.2 step 4, the total duration that survives
after trimming the selected buffer from the end of the overlap window,
counted inclusively. -/
def buffered_duration (common_start common_end : ℤ) : ℤ :=
  inclusive_day_span common_start
    (common_end - buffer_days_for (inclusive_day_span common_start common_end))

/-- The aligned-window record of §3 of the spec (record sequences omitted:
the claims under verification only concern the window arithmetic). -/
structure AlignedWindow where
  common_start : ℤ
  common_end : ℤ
  effective_end : ℤ
  total_duration_days : ℤ
  buffer_days : ℤ
deriving DecidableEq

/-- Alignment failure: insufficient data, carrying the computed day count. -/
inductive AlignError where
  | insufficientData (days : ℤ)
deriving DecidableEq

/-- Modelled from the spec: §4.2 steps 2-6 of the aligner, taking the
already-computed overlap endpoints as day numbers: compute the raw inclusive
span, pick the buffer tier, trim the end, recompute the inclusive duration,
and fail below 365 days with the computed count. -/
def alignTemporal (common_start common_end : ℤ) : Except AlignError AlignedWindow :=
  if buffered_duration common_start common_end < 365 then
    Except.error (AlignError.insufficientData (buffered_duration common_start common_end))
  else
    Except.ok
      { common_start := common_start
        common_end := common_end
        effective_end := common_end - buffer_days_for (inclusive_day_span common_start common_end)
        total_duration_days := buffered_duration common_start common_end
        buffer_days := buffer_days_for (inclusive_day_span common_start common_end) }

/-- Gregorian leap-year rule. -/
def isLeap (y : ℕ) : Bool :=
  (y % 4 == 0 && y % 100 != 0) || y % 400 == 0

/-- Month lengths of the Gregorian calendar. -/
def daysInMonth (y m : ℕ) : ℕ :=
  if m = 2 then (if isLeap y then 29 else 28)
  else if m = 4 ∨ m = 6 ∨ m = 9 ∨ m = 11 then 30
  else 31

/-- Ordinal day of the year (Jan 1 is day 1, Dec 31 is day 365 or 366). -/
def dayOfYear (y m d : ℕ) : ℕ :=
  (List.range (m - 1)).foldl (fun acc mo => acc + daysInMonth y (mo + 1)) 0 + d

theorem dayOfYear_dec31 (y : ℕ) (h : isLeap y = false) :
    dayOfYear y 12 31 = 365 := by
  have hr : List.range 11 = [0, 1, 2, 3, 4, 5, 6, 7, 8, 9, 10] := by decide
  simp only [dayOfYear, hr, List.foldl_cons, List.foldl_nil]
  norm_num [daysInMonth, h]

/-- C1: alignment fails with an insufficient-data error carrying the computed
day count exactly when the buffered total duration is below 365 days; in
particular every 364-day inclusive overlap fails, and every overlap whose raw
inclusive span is at least 365 days succeeds (no buffer tier pushes such a
span below 365). -/
theorem align_insufficient_iff (s e : ℤ) :
    (alignTemporal s e = Except.error (AlignError.insufficientData (buffered_duration s e)) ↔
      buffered_duration s e < 365) ∧
    (inclusive_day_span s e = 364 →
      alignTemporal s e = Except.error (AlignError.insufficientData 364)) ∧
    (365 ≤ inclusive_day_span s e → ∃ w, alignTemporal s e = Except.ok w) := by
  refine ⟨?_, ?_, ?_⟩
  · unfold alignTemporal
    split_ifs with hlt <;> simp [hlt]
  · intro h364
    have hbd : buffered_duration s e = 364 := by
      unfold inclusive_day_span at h364
      unfold buffered_duration buffer_days_for inclusive_day_span
      split_ifs <;> omega
    unfold alignTemporal
    rw [hbd]
    norm_num
  · intro h365
    have hbd : ¬ buffered_duration s e < 365 := by
      unfold inclusive_day_span at h365
      unfold buffered_duration buffer_days_for inclusive_day_span
      split_ifs <;> omega
    exact ⟨_, by unfold alignTemporal; rw [if_neg hbd]⟩

/-- Witness for C1: the overlap from day 0 to day 363 spans 364 inclusive
days and is rejected with the computed count 364. -/
theorem align_insufficient_iff_witness :
    alignTemporal 0 363 = Except.error (AlignError.insufficientData 364) :=
  (align_insufficient_iff 0 363).2.1 (by decide)

/-- C2: day spans are counted inclusively: Jan 1 through Dec 31 of a non-leap
year spans 365 days, and alignment of that window succeeds with
total_duration_days = 365 and buffer_days = 0. -/
theorem align_exact_year (y : ℕ) (h : isLeap y = false) :
    inclusive_day_span (dayOfYear y 1 1) (dayOfYear y 12 31) = 365 ∧
    ∃ w, alignTemporal (dayOfYear y 1 1) (dayOfYear y 12 31) = Except.ok w ∧
      w.total_duration_days = 365 ∧ w.buffer_days = 0 := by
  have h31 : dayOfYear y 12 31 = 365 := dayOfYear_dec31 y h
  have h1 : dayOfYear y 1 1 = 1 := by simp [dayOfYear]
  rw [h31, h1]
  refine ⟨by decide, ⟨1, 365, 365, 365, 0⟩, ?_, rfl, rfl⟩
  norm_num [alignTemporal, buffered_duration, buffer_days_for, inclusive_day_span]

/-- Witness for C2: the year 2023 is not a leap year and its Jan 1 - Dec 31
window aligns to exactly 365 days with no buffer. -/
theorem align_exact_year_witness :
    inclusive_day_span (dayOfYear 2023 1 1) (dayOfYear 2023 12 31) = 365 ∧
    ∃ w, alignTemporal (dayOfYear 2023 1 1) (dayOfYear 2023 12 31) = Except.ok w ∧
      w.total_duration_days = 365 ∧ w.buffer_days = 0 :=
  align_exact_year 2023 (by decide)

/-- C3: the buffer is selected by exactly the three tiers 0 / 1 / 5 at the
thresholds 370 and 385; a successful alignment satisfies
effective_end = common_end - buffer_days and
total_duration_days = (effective_end - common_start) + 1; at the boundary
spans 370, 371, 385, 386 and 400 the tiers transition exactly there and the
buffered duration stays at or above 365, so alignment succeeds. -/
theorem buffer_tier_boundaries (s e : ℤ) :
    (∀ raw : ℤ, (raw ≤ 370 → buffer_days_for raw = 0) ∧
      (370 < raw → raw ≤ 385 → buffer_days_for raw = 1) ∧
      (385 < raw → buffer_days_for raw = 5)) ∧
    (∀ w, alignTemporal s e = Except.ok w →
      w.buffer_days = buffer_days_for (inclusive_day_span s e) ∧
      w.effective_end = e - w.buffer_days ∧
      w.total_duration_days = (w.effective_end - s) + 1) ∧
    (365 ≤ buffered_duration s e →
      ∃ w, alignTemporal s e = Except.ok w ∧
        w.total_duration_days = buffered_duration s e) ∧
    ((inclusive_day_span s e = 370 →
        buffer_days_for (inclusive_day_span s e) = 0 ∧ buffered_duration s e = 370) ∧
      (inclusive_day_span s e = 371 →
        buffer_days_for (inclusive_day_span s e) = 1 ∧ buffered_duration s e = 370) ∧
      (inclusive_day_span s e = 385 →
        buffer_days_for (inclusive_day_span s e) = 1 ∧ buffered_duration s e = 384) ∧
      (inclusive_day_span s e = 386 →
        buffer_days_for (inclusive_day_span s e) = 5 ∧ buffered_duration s e = 381) ∧
      (inclusive_day_span s e = 400 →
        buffer_days_for (inclusive_day_span s e) = 5 ∧ buffered_duration s e = 395)) := by
  refine ⟨fun raw => ?_, fun w hw => ?_, ?_, ?_⟩
  · unfold buffer_days_for
    refine ⟨?_, ?_, ?_⟩ <;> split_ifs <;> omega
  · unfold alignTemporal at hw
    split_ifs at hw
    injection hw with hw
    subst hw
    refine ⟨rfl, rfl, ?_⟩
    unfold buffered_duration inclusive_day_span
    ring
  · intro hge
    refine ⟨⟨s, e, e - buffer_days_for (inclusive_day_span s e), buffered_duration s e,
      buffer_days_for (inclusive_day_span s e)⟩, ?_, rfl⟩
    unfold alignTemporal
    rw [if_neg (by omega)]
  · refine ⟨?_, ?_, ?_, ?_, ?_⟩ <;>
      (intro hsp
       unfold inclusive_day_span at hsp
       unfold buffered_duration buffer_days_for inclusive_day_span
       constructor <;> split_ifs <;> omega)

/-- Witness for C3: the window from day 1 to day 371 has raw span 371, takes
the one-day buffer tier, and aligns to 370 days. -/
theorem buffer_tier_boundaries_witness :
    buffer_days_for (inclusive_day_span 1 371) = 1 ∧ buffered_duration 1 371 = 370 :=
  (buffer_tier_boundaries 1 371).2.2.2.2.1 (by decide)

/-! ## Form validation

Translated from the frontend hook `useFormValidation` (sources:
`src/unnamed/part_007`) and the submit handler of `pages/Home.tsx`. File
objects are modelled by their presence (the code only tests nullness). -/

/-- Form state as validated by the frontend: file presence plus the three
numeric configuration fields (JS numbers, modelled as rationals). -/
structure FormValues where
  scadaFile : Bool
  meterFile : Bool
  numSimulations : ℚ
  ratedCapacity : ℚ
  confidenceLevel : ℚ

/-- Translation of `validateForm`: returns the first failing check's message,
or none when every check passes. -/
def validateForm (values : FormValues) : Option String :=
  if values.scadaFile = false ∨ values.meterFile = false then
    some "Please upload both SCADA and Meter CSV files"
  else if values.numSimulations < 50 ∨ values.numSimulations > 10000 then
    some "Number of simulations must be between 50 and 10,000"
  else if values.ratedCapacity ≤ 0 ∨ values.ratedCapacity > 100000 then
    some "Rated capacity must be between 1 and 100,000 kW"
  else if values.confidenceLevel < 50 ∨ values.confidenceLevel > 99 then
    some "Confidence level must be between 50% and 99%"
  else none

/-- The request body `handleAnalyze` posts to the backend (the file parts are
elided; the numeric field is what the claims concern). -/
structure AnalyzeRequest where
  num_simulations : ℚ

/-- Translation of `handleAnalyze` in `Home.tsx` up to the network call: a
validation error aborts before any request is issued; otherwise the request
carrying `num_simulations` is produced. -/
def handleAnalyze (values : FormValues) : Except String AnalyzeRequest :=
  match validateForm values with
  | some err => Except.error err
  | none => Except.ok ⟨values.numSimulations⟩

/-- C6: with both files present and the other fields in range, the iteration
count is accepted exactly when it lies in [50, 10000]; out-of-range counts
abort with the out-of-range message before any analysis request is produced. -/
theorem validateForm_numSimulations_iff (v : FormValues)
    (hs : v.scadaFile = true) (hm : v.meterFile = true)
    (hrc : 0 < v.ratedCapacity ∧ v.ratedCapacity ≤ 100000)
    (hcl : 50 ≤ v.confidenceLevel ∧ v.confidenceLevel ≤ 99) :
    (validateForm v = none ↔ 50 ≤ v.numSimulations ∧ v.numSimulations ≤ 10000) ∧
    (v.numSimulations < 50 ∨ 10000 < v.numSimulations →
      handleAnalyze v = Except.error "Number of simulations must be between 50 and 10,000") := by
  have key : validateForm v =
      if v.numSimulations < 50 ∨ v.numSimulations > 10000 then
        some "Number of simulations must be between 50 and 10,000"
      else none := by
    unfold validateForm
    rw [hs, hm, if_neg (by simp)]
    split_ifs with h1 h2 h3
    · rfl
    · exact absurd h2 (by push_neg; exact hrc)
    · exact absurd h3 (by push_neg; exact hcl)
    · rfl
  constructor
  · rw [key]
    split_ifs with h1
    · refine iff_of_false (by simp) ?_
      rintro ⟨hlo, hhi⟩
      rcases h1 with h | h <;> linarith
    · push_neg at h1
      exact iff_of_true rfl h1
  · intro hns
    unfold handleAnalyze
    rw [key, if_pos hns]

/-- Witness for C6: with both files present, capacity 2000 kW, confidence
90% and 1000 iterations, validation passes; with 49 iterations it aborts
with the out-of-range message. -/
theorem validateForm_numSimulations_iff_witness :
    validateForm ⟨true, true, 1000, 2000, 90⟩ = none ∧
    handleAnalyze ⟨true, true, 49, 2000, 90⟩ =
      Except.error "Number of simulations must be between 50 and 10,000" :=
  ⟨(validateForm_numSimulations_iff ⟨true, true, 1000, 2000, 90⟩ rfl rfl
      (by norm_num) (by norm_num)).1.mpr (by norm_num),
    (validateForm_numSimulations_iff ⟨true, true, 49, 2000, 90⟩ rfl rfl
      (by norm_num) (by norm_num)).2 (by norm_num)⟩

/-- C10: with both files present and the iteration count in range, the
capacity error (whose text claims a 1 to 100,000 range) fires exactly when
ratedCapacity ≤ 0 or ratedCapacity > 100000; hence every fractional capacity
strictly between 0 and 1 kW is accepted despite the message text. -/
theorem validateForm_ratedCapacity_iff (v : FormValues)
    (hs : v.scadaFile = true) (hm : v.meterFile = true)
    (hns : 50 ≤ v.numSimulations ∧ v.numSimulations ≤ 10000) :
    (validateForm v = some "Rated capacity must be between 1 and 100,000 kW" ↔
      v.ratedCapacity ≤ 0 ∨ 100000 < v.ratedCapacity) ∧
    (0 < v.ratedCapacity → v.ratedCapacity < 1 →
      50 ≤ v.confidenceLevel → v.confidenceLevel ≤ 99 → validateForm v = none) := by
  have key : validateForm v =
      if v.ratedCapacity ≤ 0 ∨ v.ratedCapacity > 100000 then
        some "Rated capacity must be between 1 and 100,000 kW"
      else if v.confidenceLevel < 50 ∨ v.confidenceLevel > 99 then
        some "Confidence level must be between 50% and 99%"
      else none := by
    unfold validateForm
    rw [hs, hm, if_neg (by simp), if_neg (by push_neg; exact hns)]
  constructor
  · rw [key]
    split_ifs with h2 h3
    · exact iff_of_true rfl h2
    · push_neg at h2
      refine iff_of_false (by simp) ?_
      rintro (h | h) <;> linarith [h2.1, h2.2]
    · push_neg at h2
      refine iff_of_false (by simp) ?_
      rintro (h | h) <;> linarith [h2.1, h2.2]
  · intro hpos hlt1 hc1 hc2
    rw [key, if_neg (by push_neg; exact ⟨hpos, by linarith⟩),
      if_neg (by push_neg; exact ⟨hc1, hc2⟩)]

/-- Witness for C10: a fractional capacity of half a kilowatt passes
validation even though the message text advertises a minimum of 1. -/
theorem validateForm_ratedCapacity_iff_witness :
    validateForm ⟨true, true, 1000, 1 / 2, 90⟩ = none :=
  (validateForm_ratedCapacity_iff ⟨true, true, 1000, 1 / 2, 90⟩ rfl rfl
    (by norm_num)).2 (by norm_num) (by norm_num) (by norm_num) (by norm_num)

/-! ## Analysis helpers

Translated from `frontend/src/utils/analysisHelpers.ts` (the same logic is
duplicated inline in the Results page, `src/unnamed/part_008`). JS numbers
are modelled as rationals, with the IEEE special cases of the histogram code
made explicit where they change behaviour. -/

/-- The analysis payload consumed by the results page. -/
structure AnalysisData where
  p50 : ℚ
  p90 : ℚ
  samples : List ℚ
deriving DecidableEq

/-- Summary statistics. The source stores stdDev = Math.sqrt(variance), an
irrational value; this embedding carries the variance (the square of the
standard deviation), where the population-versus-sample distinction under
verification lives. -/
structure Statistics where
  mean : ℚ
  variance : ℚ
  count : ℕ
deriving DecidableEq

/-- Translation of `calculateStatistics`: the guard clause returns zeros for
null data or an empty sample list; otherwise the mean is the reduce-sum over
the count and the variance the reduce-sum of squared deviations over the
count (population form, not count - 1). -/
def calculateStatistics (data : Option AnalysisData) : Statistics :=
  match data with
  | none => ⟨0, 0, 0⟩
  | some d =>
    if d.samples = [] then ⟨0, 0, 0⟩
    else
      let count := d.samples.length
      let mean := d.samples.foldl (fun sum val => sum + val) 0 / (count : ℚ)
      let variance :=
        d.samples.foldl (fun sum val => sum + (val - mean) ^ 2) 0 / (count : ℚ)
      ⟨mean, variance, count⟩

/-- Math.min spread over an array (the callers guard emptiness, so the
default for the empty list is never relevant). -/
def listMin : List ℚ → ℚ
  | [] => 0
  | x :: xs => xs.foldl min x

/-- Math.max spread over an array, as `listMin`. -/
def listMax : List ℚ → ℚ
  | [] => 0
  | x :: xs => xs.foldl max x

/-- Translation of the bin index expression
`Math.min(Math.floor((sample - min) / binWidth), binCount - 1)`, with the
IEEE special cases made explicit: when binWidth = 0 the division is 0/0 =
NaN for a sample at the minimum (the increment then lands on the array
property named NaN, touching none of the 20 numeric slots: modelled as
none) and +Infinity for a larger sample (Math.min clamps it to 19). -/
def binIndexJS (mn binWidth s : ℚ) : Option ℤ :=
  if binWidth = 0 then
    (if mn < s then some 19 else none)
  else some (min ⌊(s - mn) / binWidth⌋ 19)

/-- One iteration of the bin-filling loop, `bins[binIndex]++`: an integer
index inside [0, length) updates that slot; any other index (negative, or
the NaN case modelled by none) writes a non-element property of the JS
array, leaving the numeric slots unchanged. Indices above 19 never occur
because Math.min clamps. -/
def bumpBin (bins : List ℕ) (idx : Option ℤ) : List ℕ :=
  match idx with
  | none => bins
  | some k =>
    if 0 ≤ k ∧ k.toNat < bins.length then
      bins.set k.toNat (bins.getD k.toNat 0 + 1)
    else bins

/-- The chart payload of `prepareHistogramData`: the 20 bin-start labels
(kept as numbers; the source formats them with toFixed) and the 20 counts. -/
structure HistogramResult where
  labels : List ℚ
  bins : List ℕ
deriving DecidableEq

/-- Translation of `prepareHistogramData`: null data or an empty sample list
returns null; otherwise 20 labels at the bin starts and 20 counts filled by
the clamped floor index over bin width (max - min) / 20. -/
def prepareHistogramData (data : Option AnalysisData) : Option HistogramResult :=
  match data with
  | none => none
  | some d =>
    if d.samples = [] then none
    else
      let mn := listMin d.samples
      let mx := listMax d.samples
      let binWidth := (mx - mn) / 20
      let labels := (List.range 20).map (fun i : ℕ => mn + (i : ℚ) * binWidth)
      let bins := d.samples.foldl
        (fun b s => bumpBin b (binIndexJS mn binWidth s)) (List.replicate 20 0)
      some ⟨labels, bins⟩

theorem foldl_add (l : List ℚ) : ∀ a : ℚ, l.foldl (fun sum val => sum + val) a = a + l.sum := by
  induction l with
  | nil => intro a; simp
  | cons x xs ih =>
    intro a
    simp only [List.foldl_cons, List.sum_cons, ih (a + x)]
    ring

theorem foldl_add_map (f : ℚ → ℚ) (l : List ℚ) :
    ∀ a : ℚ, l.foldl (fun sum val => sum + f val) a = a + (l.map f).sum := by
  induction l with
  | nil => intro a; simp
  | cons x xs ih =>
    intro a
    simp only [List.foldl_cons, List.map_cons, List.sum_cons, ih (a + f x)]
    ring

theorem foldl_min_le_init : ∀ (xs : List ℚ) (a : ℚ), xs.foldl min a ≤ a
  | [], a => le_refl a
  | x :: xs, a => le_trans (foldl_min_le_init xs (min a x)) (min_le_left a x)

theorem foldl_min_le_mem : ∀ (xs : List ℚ) (a x : ℚ), x ∈ xs → xs.foldl min a ≤ x
  | [], _, _, hx => absurd hx (List.not_mem_nil _)
  | y :: ys, a, x, hx => by
    rcases List.mem_cons.mp hx with rfl | hmem
    · exact le_trans (foldl_min_le_init ys (min a x)) (min_le_right a x)
    · exact foldl_min_le_mem ys (min a y) x hmem

theorem listMin_le_mem (l : List ℚ) (x : ℚ) (hx : x ∈ l) : listMin l ≤ x := by
  match l, hx with
  | y :: ys, hx =>
    rcases List.mem_cons.mp hx with rfl | hmem
    · exact foldl_min_le_init ys x
    · exact foldl_min_le_mem ys y x hmem

theorem length_bumpBin (bins : List ℕ) (idx : Option ℤ) :
    (bumpBin bins idx).length = bins.length := by
  cases idx with
  | none => rfl
  | some k =>
    simp only [bumpBin]
    split_ifs with h
    · exact List.length_set bins k.toNat _
    · rfl

theorem sum_set_incr (l : List ℕ) : ∀ i : ℕ, i < l.length →
    (l.set i (l.getD i 0 + 1)).sum = l.sum + 1 := by
  induction l with
  | nil => intro i h; simp at h
  | cons x xs ih =>
    intro i h
    cases i with
    | zero => simp [List.getD_cons_zero, List.sum_cons]; omega
    | succ n =>
      have hn : n < xs.length := by simpa using h
      simp only [List.set, List.getD_cons_succ, List.sum_cons, ih n hn]
      omega

theorem sum_bumpBin_some (bins : List ℕ) (k : ℤ) (h0 : 0 ≤ k)
    (hk : k.toNat < bins.length) : (bumpBin bins (some k)).sum = bins.sum + 1 := by
  simp only [bumpBin]
  rw [if_pos ⟨h0, hk⟩]
  exact sum_set_incr bins k.toNat hk

theorem binIndexJS_valid (mn w s : ℚ) (hw : 0 < w) (hs : mn ≤ s) :
    binIndexJS mn w s = some (min ⌊(s - mn) / w⌋ 19) ∧
      0 ≤ min ⌊(s - mn) / w⌋ 19 ∧ min ⌊(s - mn) / w⌋ 19 ≤ 19 := by
  refine ⟨by unfold binIndexJS; rw [if_neg hw.ne'], ?_, min_le_right _ _⟩
  exact le_min (Int.floor_nonneg.mpr (div_nonneg (by linarith) hw.le)) (by norm_num)

theorem foldl_bumpBin_sum (mn w : ℚ) (hw : 0 < w) :
    ∀ (l : List ℚ) (bins : List ℕ), (∀ s ∈ l, mn ≤ s) → bins.length = 20 →
      (l.foldl (fun b s => bumpBin b (binIndexJS mn w s)) bins).sum = bins.sum + l.length
  | [], bins, _, _ => by simp
  | s :: rest, bins, hmem, hlen => by
    simp only [List.foldl_cons, List.length_cons]
    obtain ⟨hk, h0, h19⟩ := binIndexJS_valid mn w s hw (hmem s (by simp))
    have hkn : (min ⌊(s - mn) / w⌋ 19).toNat < bins.length := by omega
    rw [foldl_bumpBin_sum mn w hw rest _ (fun t ht => hmem t (by simp [ht]))
        (by rw [length_bumpBin]; exact hlen),
      hk, sum_bumpBin_some bins _ h0 hkn]
    omega

theorem foldl_bumpBin_length (mn w : ℚ) :
    ∀ (l : List ℚ) (bins : List ℕ),
      (l.foldl (fun b s => bumpBin b (binIndexJS mn w s)) bins).length = bins.length
  | [], _ => rfl
  | s :: rest, bins => by
    simp only [List.foldl_cons]
    rw [foldl_bumpBin_length mn w rest _, length_bumpBin]

/-- C4 (amended): for every non-empty sample list whose maximum exceeds its
minimum, prepareHistogramData produces exactly 20 bins and 20 labels, the
labels are the bin starts at width (max - min) / 20, and the bin counts sum
exactly to the number of samples. For a constant sample list the JS bin
width is 0, the index becomes NaN, and the counts stay zero (see the
counterexample), so the claim as stated over every non-empty list fails. -/
theorem prepareHistogramData_spec (d : AnalysisData) (hne : d.samples ≠ [])
    (hlt : listMin d.samples < listMax d.samples) :
    ∃ h, prepareHistogramData (some d) = some h ∧
      h.bins.length = 20 ∧ h.labels.length = 20 ∧
      h.labels = (List.range 20).map
        (fun i : ℕ => listMin d.samples +
          (i : ℚ) * ((listMax d.samples - listMin d.samples) / 20)) ∧
      h.bins.sum = d.samples.length := by
  have hw : 0 < (listMax d.samples - listMin d.samples) / 20 := by
    apply div_pos (by linarith) (by norm_num)
  simp only [prepareHistogramData, if_neg hne]
  refine ⟨_, rfl, ?_, by rw [List.length_map, List.length_range], rfl, ?_⟩
  · rw [foldl_bumpBin_length]
    simp
  · rw [foldl_bumpBin_sum _ _ hw d.samples _ (fun s hs => listMin_le_mem _ s hs)
      (by simp)]
    simp

/-- Witness for C4 (amended): for the two-sample list [1, 3] the histogram
has 20 bins and 20 labels and the counts sum to 2. -/
theorem prepareHistogramData_spec_witness :
    ∃ h, prepareHistogramData (some ⟨0, 0, [1, 3]⟩) = some h ∧
      h.bins.length = 20 ∧ h.labels.length = 20 ∧
      h.labels = (List.range 20).map
        (fun i : ℕ => listMin [1, 3] + (i : ℚ) * ((listMax [1, 3] - listMin [1, 3]) / 20)) ∧
      h.bins.sum = [(1 : ℚ), 3].length :=
  prepareHistogramData_spec ⟨0, 0, [1, 3]⟩ (by decide) (by decide)

/-- Counterexample for C4 as stated: for the constant one-sample list [5]
prepareHistogramData returns a histogram whose twenty bin counts sum to 0,
not to the sample count 1: the JS index (5 - 5) / 0 is NaN, and the
increment lands outside every numeric slot. -/
theorem prepareHistogramData_constant_cex :
    (prepareHistogramData (some ⟨0, 0, [5]⟩)).map (fun h => h.bins.sum) = some 0 ∧
    ([(5 : ℚ)].length = 1) ∧ (0 : ℕ) ≠ 1 := by
  refine ⟨?_, rfl, by decide⟩
  norm_num [prepareHistogramData, binIndexJS, bumpBin, listMin, listMax]

/-- C7: when the sample range is non-degenerate, the computed bin index of
every sample is an integer in [0, 19] (so the increment never leaves the 20
slots), and every sample equal to the maximum is counted in bin 19. -/
theorem binIndex_in_range (d : AnalysisData) (s : ℚ) (hs : s ∈ d.samples)
    (hlt : listMin d.samples < listMax d.samples) :
    ∃ k : ℤ,
      binIndexJS (listMin d.samples)
          ((listMax d.samples - listMin d.samples) / 20) s = some k ∧
        0 ≤ k ∧ k ≤ 19 ∧ (s = listMax d.samples → k = 19) := by
  have hw : 0 < (listMax d.samples - listMin d.samples) / 20 :=
    div_pos (by linarith) (by norm_num)
  obtain ⟨hk, h0, h19⟩ := binIndexJS_valid _ _ s hw (listMin_le_mem _ s hs)
  refine ⟨_, hk, h0, h19, ?_⟩
  intro hmax
  subst hmax
  have hne : listMax d.samples - listMin d.samples ≠ 0 := by linarith
  have h20 : (listMax d.samples - listMin d.samples) /
      ((listMax d.samples - listMin d.samples) / 20) = 20 := by
    rw [div_div_eq_mul_div, mul_comm, mul_div_assoc, div_self hne, mul_one]
  rw [h20]
  norm_num

/-- Witness for C7: in the sample list [1, 3] the maximum 3 is assigned bin
index 19. -/
theorem binIndex_in_range_witness :
    ∃ k : ℤ,
      binIndexJS (listMin [1, 3]) ((listMax [1, 3] - listMin [1, 3]) / 20) 3 = some k ∧
        0 ≤ k ∧ k ≤ 19 ∧ ((3 : ℚ) = listMax [1, 3] → k = 19) :=
  binIndex_in_range ⟨0, 0, [1, 3]⟩ 3 (by decide) (by decide)

/-- C9: calculateStatistics is total with zero guards: null data or an empty
sample list yields mean 0, variance 0, count 0; a non-empty list yields the
sample count, the arithmetic mean, and the population variance: the sum of
squared deviations divided by the count, not by count - 1. -/
theorem calculateStatistics_spec :
    calculateStatistics none = ⟨0, 0, 0⟩ ∧
    (∀ d : AnalysisData, d.samples = [] → calculateStatistics (some d) = ⟨0, 0, 0⟩) ∧
    (∀ d : AnalysisData, d.samples ≠ [] →
      (calculateStatistics (some d)).count = d.samples.length ∧
      (calculateStatistics (some d)).mean = d.samples.sum / (d.samples.length : ℚ) ∧
      (calculateStatistics (some d)).variance =
        (d.samples.map
          (fun x => (x - (calculateStatistics (some d)).mean) ^ 2)).sum /
          (d.samples.length : ℚ)) := by
  refine ⟨rfl, fun d hd => by simp [calculateStatistics, hd], fun d hd => ?_⟩
  have hcount : (calculateStatistics (some d)).count = d.samples.length := by
    simp [calculateStatistics, hd]
  have hmean : (calculateStatistics (some d)).mean =
      d.samples.sum / (d.samples.length : ℚ) := by
    simp [calculateStatistics, hd, foldl_add]
  have hvar : (calculateStatistics (some d)).variance =
      (d.samples.map
        (fun x => (x - d.samples.sum / (d.samples.length : ℚ)) ^ 2)).sum /
        (d.samples.length : ℚ) := by
    simp [calculateStatistics, hd, foldl_add_map, foldl_add]
  exact ⟨hcount, hmean, by rw [hvar, hmean]⟩

/-- Witness for C9: for the samples [1, 2, 3] the statistics are count 3,
mean 2, and population variance 2/3 (the sample variance would be 1). -/
theorem calculateStatistics_spec_witness :
    (calculateStatistics (some ⟨0, 0, [1, 2, 3]⟩)).count = 3 ∧
    (calculateStatistics (some ⟨0, 0, [1, 2, 3]⟩)).mean = 2 ∧
    (calculateStatistics (some ⟨0, 0, [1, 2, 3]⟩)).variance = 2 / 3 := by
  obtain ⟨hc, hm, hv⟩ := calculateStatistics_spec.2.2 ⟨0, 0, [1, 2, 3]⟩ (by decide)
  have hm2 : (calculateStatistics (some ⟨0, 0, [1, 2, 3]⟩)).mean = 2 := by
    rw [hm]; norm_num
  refine ⟨by rw [hc]; rfl, hm2, ?_⟩
  rw [hv, hm2]
  norm_num

/-! ## Monte Carlo AEP engine

The backend engine is specified in §4.4 of the spec but its Python service
module is not part of the shipped sources, so this section is modelled from
the specification: an explicitly seeded generator, index-bootstrap resamples
of the zipped telemetry/meter pairing (the spec leaves the concrete
resampling scheme as a policy choice, requiring only seed-determinism and
pair preservation), an external estimator treated as a black-box function
that may fail per draw, and percentiles by linear interpolation between
order statistics of the sorted successful draws. -/

/-- Telemetry record of §3 of the spec. -/
structure TelemetryRecord where
  timestamp : ℤ
  power_kw : ℚ
  wind_speed_ms : ℚ
  wind_direction_deg : ℚ
deriving DecidableEq

/-- Meter record of §3 of the spec. -/
structure MeterRecord where
  timestamp : ℤ
  energy_kwh : ℚ
deriving DecidableEq

/-- Aligned dataset of §3 of the spec: the trimmed record sequences plus the
window metadata. -/
structure AlignedDataset where
  telemetry : List TelemetryRecord
  meter : List MeterRecord
  window : AlignedWindow
deriving DecidableEq

/-- Modelled from the spec: a 64-bit linear congruential step standing in
for the engine's seeded pseudo-random generator (the concrete generator is
a policy choice; what matters is that the state is threaded explicitly and
seeded only from the request's fixed seed). -/
def lcgNext (state : ℕ) : ℕ :=
  (6364136223846793005 * state + 1442695040888963407) % (2 ^ 64)

/-- Draw `count` pseudo-random indices below `bound`, threading the
generator state. A zero bound never arises for the draws the engine makes
over a non-empty pairing. -/
def drawIndices : ℕ → ℕ → ℕ → List ℕ × ℕ
  | 0, _, state => ([], state)
  | count + 1, bound, state =>
    let state1 := lcgNext state
    let idx := if bound = 0 then 0 else state1 % bound
    let rest := drawIndices count bound state1
    (idx :: rest.1, rest.2)

/-- Modelled from the spec: one bootstrap resample of the zipped
telemetry/meter pairing; sampling whole pairs preserves the paired
relationship at each sampled point (§4.4 requirement (c)). -/
def resamplePairs (pairs : List (TelemetryRecord × MeterRecord)) (idxs : List ℕ) :
    List (TelemetryRecord × MeterRecord) :=
  idxs.filterMap (fun i => pairs.get? i)

/-- Modelled from the spec: run the N iterations: each draws an independent
resample (one index per record pair) and passes it to the external
estimator; a per-draw estimator failure is recorded as none and the loop
continues (§4.4). -/
def runDraws (est : List (TelemetryRecord × MeterRecord) → Option ℚ)
    (pairs : List (TelemetryRecord × MeterRecord)) :
    ℕ → ℕ → List (Option ℚ) × ℕ
  | 0, state => ([], state)
  | n + 1, state =>
    let draw := drawIndices pairs.length pairs.length state
    let value := est (resamplePairs pairs draw.1)
    let rest := runDraws est pairs n draw.2
    (value :: rest.1, rest.2)

/-- Linear interpolation between adjacent order statistics at a fractional
index h: with i the floor of h, the value is lerp between the entries at i
and i + 1 (the entry at i is reused past the end, so an integral maximal h
reads exactly the last entry). -/
def interpAt (l : List ℚ) (h : ℚ) : ℚ :=
  let i := (⌊h⌋).toNat
  let lo := l.getD i 0
  let hi := l.getD (i + 1) lo
  lo + (h - (i : ℚ)) * (hi - lo)

/-- Modelled from the spec: the q-th percentile of a sorted sample list by
linear interpolation between order statistics (§4.4 requires a fixed,
documented interpolation method; this is the numpy linear default). -/
def percentile (sorted : List ℚ) (q : ℚ) : ℚ :=
  if sorted = [] then 0
  else interpAt sorted (q * ((sorted.length : ℚ) - 1) / 100)

/-- Simulation outcome of §3 of the spec. -/
structure SimulationResult where
  samples : List ℚ
  p50 : ℚ
  p90 : ℚ
deriving DecidableEq

/-- Simulation failure of §7 of the spec: too few successful draws. -/
inductive SimError where
  | tooFewDraws (failed : ℕ)
deriving DecidableEq

/-- The zipped telemetry/meter pairing the engine resamples. -/
def enginePairs (ds : AlignedDataset) : List (TelemetryRecord × MeterRecord) :=
  ds.telemetry.zip ds.meter

/-- The N draw outcomes together with the final generator state, seeded from
the request's fixed seed. -/
def engineDraws (est : List (TelemetryRecord × MeterRecord) → Option ℚ)
    (ds : AlignedDataset) (seed n : ℕ) : List (Option ℚ) × ℕ :=
  runDraws est (enginePairs ds) n (lcgNext seed)

/-- The successful draw values, in draw order. -/
def engineOk (est : List (TelemetryRecord × MeterRecord) → Option ℚ)
    (ds : AlignedDataset) (seed n : ℕ) : List ℚ :=
  (engineDraws est ds seed n).1.filterMap id

/-- The successful draw values in ascending order, for the percentile read. -/
def engineSorted (est : List (TelemetryRecord × MeterRecord) → Option ℚ)
    (ds : AlignedDataset) (seed n : ℕ) : List ℚ :=
  (engineOk est ds seed n).insertionSort (· ≤ ·)

/-- Modelled from the spec: the engine core: run the N draws from the fixed
seed, fail when fewer than half succeed (§4.4, minimum fraction 50%),
otherwise sort the successful energies and read p50 (the median) and p90
(the lower-tail 10th percentile: the value exceeded 90% of the time); the
advanced generator state is returned alongside the outcome. -/
def runEngineCore (est : List (TelemetryRecord × MeterRecord) → Option ℚ)
    (ds : AlignedDataset) (seed n : ℕ) :
    Except SimError SimulationResult × ℕ :=
  if 2 * (engineOk est ds seed n).length < n then
    (Except.error (SimError.tooFewDraws (n - (engineOk est ds seed n).length)),
      (engineDraws est ds seed n).2)
  else
    (Except.ok
      { samples := engineOk est ds seed n
        p50 := percentile (engineSorted est ds seed n) 50
        p90 := percentile (engineSorted est ds seed n) 10 },
      (engineDraws est ds seed n).2)

/-- The engine as invoked for one request. -/
def runEngine (est : List (TelemetryRecord × MeterRecord) → Option ℚ)
    (ds : AlignedDataset) (seed n : ℕ) : Except SimError SimulationResult :=
  (runEngineCore est ds seed n).1

/-- A process-level generator state, for stating run-twice determinism. -/
structure EngineWorld where
  rngState : ℕ
deriving DecidableEq

/-- The engine's effect on the process: it reseeds its generator from the
request's fixed seed (ignoring the ambient state) and leaves the advanced
state behind. -/
def runEngineW (est : List (TelemetryRecord × MeterRecord) → Option ℚ)
    (ds : AlignedDataset) (seed n : ℕ) (w : EngineWorld) :
    EngineWorld × Except SimError SimulationResult :=
  (⟨(runEngineCore est ds seed n).2⟩, (runEngineCore est ds seed n).1)

/-- A deterministic stub estimator, as §9 of the spec recommends for
testing the engine. -/
def estOne : List (TelemetryRecord × MeterRecord) → Option ℚ :=
  fun _ => some 1

/-- A minimal aligned dataset with one telemetry/meter pair. -/
def dsOne : AlignedDataset :=
  ⟨[⟨0, 100, 10, 180⟩], [⟨0, 500⟩], ⟨0, 364, 364, 365, 0⟩⟩

theorem getD_mono_sorted (l : List ℚ) (hs : l.Sorted (· ≤ ·)) {a b : ℕ}
    (hab : a ≤ b) (hb : b < l.length) : l.getD a 0 ≤ l.getD b 0 := by
  have ha : a < l.length := lt_of_le_of_lt hab hb
  rw [List.getD_eq_getElem l 0 ha, List.getD_eq_getElem l 0 hb]
  rcases eq_or_lt_of_le hab with rfl | hlt
  · exact le_refl _
  · have := hs.rel_get_of_lt (a := ⟨a, ha⟩) (b := ⟨b, hb⟩) hlt
    simpa [List.get_eq_getElem] using this

theorem getD_succ_ge (l : List ℚ) (hs : l.Sorted (· ≤ ·)) (i : ℕ) :
    l.getD i 0 ≤ l.getD (i + 1) (l.getD i 0) := by
  by_cases hlt : i + 1 < l.length
  · rw [List.getD_eq_getElem l _ hlt, ← List.getD_eq_getElem l 0 hlt]
    exact getD_mono_sorted l hs (Nat.le_succ i) hlt
  · rw [List.getD_eq_default l _ (not_lt.mp hlt)]

theorem interpAt_mono (l : List ℚ) (hs : l.Sorted (· ≤ ·)) (h1 h2 : ℚ)
    (h10 : 0 ≤ h1) (h12 : h1 ≤ h2) (hup : h2 ≤ (l.length : ℚ) - 1) :
    interpAt l h1 ≤ interpAt l h2 := by
  have h20 : 0 ≤ h2 := le_trans h10 h12
  have hf10 : 0 ≤ ⌊h1⌋ := Int.floor_nonneg.mpr h10
  have hf20 : 0 ≤ ⌊h2⌋ := Int.floor_nonneg.mpr h20
  have hc1 : ((⌊h1⌋.toNat : ℕ) : ℚ) = ((⌊h1⌋ : ℤ) : ℚ) := by
    exact_mod_cast congrArg (fun z : ℤ => (z : ℚ)) (Int.toNat_of_nonneg hf10)
  have hc2 : ((⌊h2⌋.toNat : ℕ) : ℚ) = ((⌊h2⌋ : ℤ) : ℚ) := by
    exact_mod_cast congrArg (fun z : ℤ => (z : ℚ)) (Int.toNat_of_nonneg hf20)
  have hle1 : ((⌊h1⌋.toNat : ℕ) : ℚ) ≤ h1 := by rw [hc1]; exact Int.floor_le h1
  have hle2 : ((⌊h2⌋.toNat : ℕ) : ℚ) ≤ h2 := by rw [hc2]; exact Int.floor_le h2
  have hlt1 : h1 < ((⌊h1⌋.toNat : ℕ) : ℚ) + 1 := by rw [hc1]; exact Int.lt_floor_add_one h1
  have hlt2 : h2 < ((⌊h2⌋.toNat : ℕ) : ℚ) + 1 := by rw [hc2]; exact Int.lt_floor_add_one h2
  have hi2lt : ⌊h2⌋.toNat < l.length := by
    have hq : ((⌊h2⌋.toNat : ℕ) : ℚ) < (l.length : ℚ) := by
      calc ((⌊h2⌋.toNat : ℕ) : ℚ) ≤ h2 := hle2
        _ ≤ (l.length : ℚ) - 1 := hup
        _ < l.length := by linarith
    exact_mod_cast hq
  have hmono : ⌊h1⌋.toNat ≤ ⌊h2⌋.toNat := Int.toNat_le_toNat (Int.floor_mono h12)
  simp only [interpAt]
  rcases Nat.lt_or_ge (⌊h1⌋.toNat) (⌊h2⌋.toNat) with hlt | hge
  · have hi11 : ⌊h1⌋.toNat + 1 < l.length := lt_of_le_of_lt hlt hi2lt
    have hsucc1 : l.getD (⌊h1⌋.toNat) 0 ≤ l.getD (⌊h1⌋.toNat + 1) (l.getD (⌊h1⌋.toNat) 0) :=
      getD_succ_ge l hs _
    have step1 : l.getD (⌊h1⌋.toNat) 0 +
        (h1 - ((⌊h1⌋.toNat : ℕ) : ℚ)) *
          (l.getD (⌊h1⌋.toNat + 1) (l.getD (⌊h1⌋.toNat) 0) - l.getD (⌊h1⌋.toNat) 0) ≤
        l.getD (⌊h1⌋.toNat + 1) (l.getD (⌊h1⌋.toNat) 0) := by
      nlinarith [hsucc1, hlt1, hle1]
    have step2 : l.getD (⌊h1⌋.toNat + 1) (l.getD (⌊h1⌋.toNat) 0) ≤ l.getD (⌊h2⌋.toNat) 0 := by
      rw [List.getD_eq_getElem l _ hi11, ← List.getD_eq_getElem l 0 hi11]
      exact getD_mono_sorted l hs hlt hi2lt
    have hsucc2 : l.getD (⌊h2⌋.toNat) 0 ≤ l.getD (⌊h2⌋.toNat + 1) (l.getD (⌊h2⌋.toNat) 0) :=
      getD_succ_ge l hs _
    have step3 : l.getD (⌊h2⌋.toNat) 0 ≤ l.getD (⌊h2⌋.toNat) 0 +
        (h2 - ((⌊h2⌋.toNat : ℕ) : ℚ)) *
          (l.getD (⌊h2⌋.toNat + 1) (l.getD (⌊h2⌋.toNat) 0) - l.getD (⌊h2⌋.toNat) 0) := by
      nlinarith [hsucc2, hle2]
    linarith
  · have heq : ⌊h1⌋.toNat = ⌊h2⌋.toNat := le_antisymm hmono hge
    rw [heq]
    have hsucc : l.getD (⌊h2⌋.toNat) 0 ≤ l.getD (⌊h2⌋.toNat + 1) (l.getD (⌊h2⌋.toNat) 0) :=
      getD_succ_ge l hs _
    nlinarith [hsucc, h12]

theorem percentile_mono (l : List ℚ) (hs : l.Sorted (· ≤ ·)) (q1 q2 : ℚ)
    (hq0 : 0 ≤ q1) (hq12 : q1 ≤ q2) (hq100 : q2 ≤ 100) :
    percentile l q1 ≤ percentile l q2 := by
  unfold percentile
  split_ifs with hnil
  · exact le_refl 0
  · have hn : 1 ≤ l.length := List.length_pos.mpr hnil
    have hn1 : (0 : ℚ) ≤ (l.length : ℚ) - 1 := by
      have : (1 : ℚ) ≤ (l.length : ℚ) := by exact_mod_cast hn
      linarith
    apply interpAt_mono l hs
    · exact div_nonneg (mul_nonneg hq0 hn1) (by norm_num)
    · apply div_le_div_of_nonneg_right ?_ (by norm_num)
      exact mul_le_mul_of_nonneg_right hq12 hn1
    · rw [div_le_iff (by norm_num : (0 : ℚ) < 100)]
      nlinarith

/-- C5: every successful simulation result, for any iteration count N in
[50, 10000], satisfies p90 ≤ p50: both are linear-interpolated percentiles
of the same ascending sample list and the lower-tail level 10 precedes the
median level 50. -/
theorem engine_p90_le_p50 (est : List (TelemetryRecord × MeterRecord) → Option ℚ)
    (ds : AlignedDataset) (seed n : ℕ) (hlo : 50 ≤ n) (hhi : n ≤ 10000)
    (r : SimulationResult) (hr : runEngine est ds seed n = Except.ok r) :
    r.p90 ≤ r.p50 := by
  unfold runEngine runEngineCore at hr
  split_ifs at hr
  injection hr with hr
  subst hr
  exact percentile_mono _ (List.sorted_insertionSort (· ≤ ·) _) 10 50
    (by norm_num) (by norm_num) (by norm_num)

/-- Witness for C5: the stub engine run for N = 50 over the one-pair dataset
succeeds, and its result has p90 ≤ p50. -/
theorem engine_p90_le_p50_witness :
    ∃ r, runEngine estOne dsOne 7 50 = Except.ok r ∧ r.p90 ≤ r.p50 := by
  refine ⟨_, rfl, engine_p90_le_p50 estOne dsOne 7 50 (by norm_num) (by norm_num) _ rfl⟩

/-- C8: determinism under a fixed seed: a second engine run, made after a
first run has advanced the process generator state, returns the same outcome
as the first (the engine reseeds from the request's fixed seed), and in
particular identical sample sequences; more generally the outcome does not
depend on the ambient generator state at all. -/
theorem engine_deterministic (est : List (TelemetryRecord × MeterRecord) → Option ℚ)
    (ds : AlignedDataset) (seed n : ℕ) (w : EngineWorld) :
    (runEngineW est ds seed n ((runEngineW est ds seed n w).1)).2 =
      (runEngineW est ds seed n w).2 ∧
    (∀ wa wb : EngineWorld, (runEngineW est ds seed n wa).2 = (runEngineW est ds seed n wb).2) ∧
    (∀ r1 r2, (runEngineW est ds seed n w).2 = Except.ok r1 →
      (runEngineW est ds seed n ((runEngineW est ds seed n w).1)).2 = Except.ok r2 →
      r1.samples = r2.samples) := by
  refine ⟨rfl, fun wa wb => rfl, fun r1 r2 h1 h2 => ?_⟩
  have h2a : (runEngineW est ds seed n w).2 = Except.ok r2 := h2
  rw [h1] at h2a
  rw [Except.ok.inj h2a]

/-- Witness for C8: two consecutive stub-engine runs from seed 7 produce
identical sample sequences. -/
theorem engine_deterministic_witness :
    ∃ r1 r2, (runEngineW estOne dsOne 7 2 ⟨0⟩).2 = Except.ok r1 ∧
      (runEngineW estOne dsOne 7 2 ((runEngineW estOne dsOne 7 2 ⟨0⟩).1)).2 = Except.ok r2 ∧
      r1.samples = r2.samples := by
  refine ⟨_, _, rfl, rfl, ?_⟩
  exact (engine_deterministic estOne dsOne 7 2 ⟨0⟩).2.2 _ _ rfl rfl

end OpenOA
